import Mathlib

/-!
# `schema` subcommand of the migration tool: `SchemaCmd.Execute`

A shallow embedding of `cmd/schema.go`.  `Execute` is the orchestration of one
schema-conversion run: it calls a fixed set of collaborators (logger,
prerequisite parsing, session store, expression verifier, schema conversion,
file writers, database migration, report generation) and returns an exit
status.  None of the collaborators is defined in `cmd/schema.go`; each one is a
field of `Env` that gives its outcome in the run under consideration.  Every
collaborator is called at most once per run, so a function of the arguments
describes every possible behaviour.

A run is observed through its `Result`: the operand of the `return` statement
that was executed, and the sequence of collaborator calls (`Event`s) in program
order, the deferred calls last, and how it ends.  The logger is a collaborator
like the others and its calls are recorded; `logger.Log.Fatal`, called by the
deferred handler when the function-level `err` is set, ends the process with
exit status 1, so that such a run does not return.  `*internal.Conv` is a
pointer that the collaborators may write through; the embedding threads the
pointed-to value and records in each event the value the collaborator sees when
it is called.
-/

namespace Schema

/-- Go `error` values, identified by their message; `nil` is `none`. -/
abbrev Err := String

/-- Go `time.Time` / `time.Duration`, as an integer count of clock ticks. -/
abbrev Time := Int

/-- The `subcommands.ExitStatus` values used by `Execute`. -/
inductive ExitStatus where
  | ExitSuccess
  | ExitFailure
  | ExitUsageError
  deriving DecidableEq, Repr

/-- Values of `migration.MigrationData_MigrationType`.  `cmd/schema.go` names only
`SCHEMA_ONLY`; `other n` stands for the remaining enumerators. -/
inductive MigrationType where
  | SCHEMA_ONLY
  | other (n : Nat)
  deriving DecidableEq, Repr

/-- The fields of `conv.Audit` that `Execute` assigns.  `MigrationType` is a
pointer in Go (`.Enum()`), `none` when unset. -/
structure Audit where
  MigrationRequestId : String
  MigrationType : Option MigrationType
  SkipMetricsPopulation : Bool
  SchemaConversionDuration : Time
  deriving DecidableEq, Repr

/-- The value behind `*internal.Conv`: the audit record and, as `schema`, every
other field of the model (none of them is read or written by `Execute`). -/
structure Conv where
  Audit : Audit
  schema : String
  deriving DecidableEq, Repr

/-- `SchemaCmd struct with flags.` -/
structure SchemaCmd where
  source : String
  sourceProfile : String
  target : String
  targetProfile : String
  filePrefix : String
  project : String
  logLevel : String
  dryRun : Bool
  validate : Bool
  sessionJSON : String
  deriving DecidableEq, Repr

/-- The part of the parsed source profile `Execute` reads: `sourceProfile.Driver`. -/
structure SourceProfile where
  Driver : String
  deriving DecidableEq, Repr

/-- The part of the parsed target profile `Execute` reads:
`targetProfile.Conn.Sp.Project` and `targetProfile.Conn.Sp.Instance`. -/
structure TargetProfile where
  Project : String
  Instance : String
  deriving DecidableEq, Repr

/-- The `ioHelper` value: `ioHelper.Out` (a file handle, by name) and
`ioHelper.BytesRead`. -/
structure Streams where
  Out : String
  BytesRead : Int
  deriving DecidableEq, Repr

/-- The five results of `PrepareMigrationPrerequisites`. -/
structure Prerequisites where
  sourceProfile : SourceProfile
  targetProfile : TargetProfile
  ioHelper : Streams
  dbName : String
  err : Option Err
  deriving DecidableEq, Repr

/-- One collaborator call, with the arguments it receives. -/
inductive Event where
  | RemoveAll (dir name : String)
  | InitializeLogger (logLevel : String)
  | Println (msg : String) (err : Err)
  | Sync
  | Fatal (msg : String) (err : Err)
  | Error (msg : String) (err : Option Err)
  | Info (msg : String) (field : String)
  | PrepareMigrationPrerequisites (sourceProfile targetProfile source : String)
  | GetProject
  | Now
  | MakeConv
  | ReadSessionFile (conv : Conv) (sessionJSON : String)
  | NewExpressionVerificationAccessorImpl (project inst : String)
  | VerifyExpressions (accessor : Nat) (conv : Conv)
  | NewDDLVerifierImpl (project inst : String)
  | SchemaConv (project : String) (sourceProfile : SourceProfile)
      (targetProfile : TargetProfile) (ioHelper : Streams) (ddlVerifier : Nat)
  | WriteSchemaFile (conv : Conv) (now : Time) (name : String) (out : String)
      (driver : String)
  | WriteSessionFile (conv : Conv) (name : String) (out : String)
  | GenerateName (pfx : String)
  | Getenv (key : String)
  | MigrateDatabase (project : String) (targetProfile : TargetProfile)
      (sourceProfile : SourceProfile) (dbName : String) (ioHelper : Streams)
      (cmd : SchemaCmd) (conv : Conv)
  | GetBanner (now : Time) (dbName : String)
  | GenerateReport (driver : String) (bytesRead : Int) (banner : String)
      (conv : Conv) (filePrefix : String) (dbName : String) (out : String)
  deriving DecidableEq, Repr

/-- The collaborators of `Execute` and the package-level values it reads, as they
behave in one run. -/
structure Env where
  /-- `os.TempDir()` -/
  TempDir : String
  /-- `constants.SMT_TMP_DIR` -/
  SMT_TMP_DIR : String
  /-- package variable `schemaFile` -/
  schemaFile : String
  /-- package variable `sessionFile` -/
  sessionFile : String
  /-- `logger.InitializeLogger(logLevel)` -/
  InitializeLogger : String → Option Err
  /-- `PrepareMigrationPrerequisites(sourceProfile, targetProfile, source)` -/
  PrepareMigrationPrerequisites : String → String → String → Prerequisites
  /-- `getInfo.GetProject()` -/
  GetProject : String × Option Err
  /-- first `time.Now()` -/
  startTime : Time
  /-- `internal.MakeConv()`: the value behind the fresh pointer -/
  MakeConv : Conv
  /-- `conversion.ReadSessionFile(conv, sessionJSON)`: the model it leaves, and the error -/
  ReadSessionFile : Conv → String → Conv × Option Err
  /-- `expressions_api.NewExpressionVerificationAccessorImpl(ctx, project, instance)`;
  `Execute` discards its error -/
  NewExpressionVerificationAccessorImpl : String → String → Nat
  /-- `schemaToSpanner.VerifyExpressions(conv)`: the model it leaves, and the error -/
  VerifyExpressions : Nat → Conv → Conv × Option Err
  /-- `expressions_api.NewDDLVerifierImpl(ctx, "", "")` -/
  NewDDLVerifierImpl : String → String → Nat × Option Err
  /-- `convImpl.SchemaConv(project, sourceProfile, targetProfile, &ioHelper, sfs)`:
  the returned pointer (`none` for `nil`), the `ioHelper` it leaves, and the error -/
  SchemaConv : String → SourceProfile → TargetProfile → Streams → Nat →
    Option Conv × Streams × Option Err
  /-- `conversion.WriteSchemaFile(conv, now, name, out, driver)`: the model it leaves -/
  WriteSchemaFile : Conv → Time → String → String → String → Conv
  /-- `conversion.WriteSessionFile(conv, name, out)`: the model it leaves -/
  WriteSessionFile : Conv → String → String → Conv
  /-- `utils.GenerateName(prefix)` -/
  GenerateName : String → String × Option Err
  /-- `os.Getenv(key)` -/
  Getenv : String → String
  /-- `MigrateDatabase(ctx, project, targetProfile, sourceProfile, dbName, &ioHelper, cmd, conv, nil)`:
  the model and `ioHelper` it leaves, and the error -/
  MigrateDatabase : String → TargetProfile → SourceProfile → String → Streams →
    SchemaCmd → Conv → Conv × Streams × Option Err
  /-- second `time.Now()` -/
  endTime : Time
  /-- `utils.GetBanner(now, dbName)` -/
  GetBanner : Time → String → String
  /-- `reportImpl.GenerateReport(driver, nil, bytesRead, banner, conv, filePrefix, dbName, out)`:
  the model it leaves -/
  GenerateReport : String → Int → String → Conv → String → String → String → Conv

/-- How a run of `Execute` ends: it returns a status to its caller, or the
process ends inside the call with an exit status. -/
inductive Ending where
  | returns (status : ExitStatus)
  | exits (code : Nat)
  deriving DecidableEq, Repr

/-- What a run of `Execute` does: `status` is the operand of the `return`
statement that was executed, `trace` the calls made, in order, and `ending`
how the run ends once the deferred calls have run. -/
structure Result where
  status : ExitStatus
  trace : List Event
  ending : Ending

/-! ## `strings.Replace`

The Go library function used at line 173.  A Go string is a sequence of bytes;
here it is the sequence of the characters those bytes encode (UTF-8), and
offsets into it are counted in bytes, as Go counts them. -/

namespace strings

/-- `len(s)`: the length of `s` in bytes. -/
def len : List Char → Nat
  | [] => 0
  | c :: cs => c.utf8Size + len cs

/-- `s[:i]`, for a byte offset `i` that falls between two characters. -/
def sliceTo : Nat → List Char → List Char
  | 0, _ => []
  | _ + 1, [] => []
  | i + 1, c :: cs => c :: sliceTo (i + 1 - c.utf8Size) cs

/-- `s[i:]`, for a byte offset `i` that falls between two characters. -/
def sliceFrom : Nat → List Char → List Char
  | 0, s => s
  | _ + 1, [] => []
  | i + 1, c :: cs => sliceFrom (i + 1 - c.utf8Size) cs

/-- `strings.Index(s, substr)`: the byte offset of the first occurrence of
`substr` in `s`; `none` for Go's `-1`. -/
def Index : List Char → List Char → Option Nat
  | [], substr => if substr = [] then some 0 else none
  | c :: cs, substr =>
    if substr.isPrefixOf (c :: cs) then some 0
    else (Index cs substr).map (· + c.utf8Size)

/-- The loop of `strings.Count` for a non-empty `substr`: find the next
occurrence, count it, continue after it.  Every round drops at least one
character, so `fuel = s.length` rounds are enough (`countLoop_fuel`). -/
def countLoop (substr : List Char) : Nat → List Char → Nat
  | 0, _ => 0
  | fuel + 1, s =>
    match Index s substr with
    | none => 0
    | some i => 1 + countLoop substr fuel (sliceFrom (i + len substr) s)

/-- `strings.Count(s, substr)`: the number of non-overlapping occurrences; for an
empty `substr`, one more than the number of characters. -/
def Count (s substr : List Char) : Nat :=
  if substr = [] then s.length + 1 else countLoop substr s.length s

/-- The replacement loop of `strings.Replace` for a non-empty `old`, run `n`
times: copy `s[start:j]`, then `new`, and go on from `j + len(old)`. -/
def replaceLoop (old new : List Char) : Nat → List Char → List Char
  | 0, s => s
  | n + 1, s =>
    match Index s old with
    | none => s
    | some j => sliceTo j s ++ new ++ replaceLoop old new n (sliceFrom (j + len old) s)

/-- The replacement loop of `strings.Replace` for an empty `old`: `new` goes in
front of the string and after each character, `n` times in all. -/
def replaceEmpty (new : List Char) : Nat → List Char → List Char
  | 0, s => s
  | n + 1, s =>
    new ++
      (match s with
       | [] => []
       | c :: cs => c :: replaceEmpty new n cs)

/-- `strings.Replace(s, old, new, n)`: a copy of `s` with the first `n`
non-overlapping occurrences of `old` replaced by `new`; no limit when `n < 0`. -/
def Replace (s old new : String) (n : Int) : String :=
  if old = new ∨ n = 0 then s
  else
    let m := Count s.data old.data
    if m = 0 then s
    else
      let k := if n < 0 ∨ (m : Int) < n then m else n.toNat
      if old.data = [] then String.mk (replaceEmpty new.data k s.data)
      else String.mk (replaceLoop old.data new.data k s.data)

end strings

/-! ## `Execute` -/

/-- `fmt.Errorf` / `fmt.Sprintf` with one `%v` at the end of the format: the text
before the verb followed by the error message. -/
def Errorf (text : String) (err : Err) : Err := text ++ err

/-- The deferred calls, run when `Execute` returns, last registered first:
`logger.Log.Sync()` (line 102) when it was registered, then the handler of
lines 92-96, which logs at fatal level when the function-level `err` is set. -/
def deferred (syncRegistered : Bool) (err : Option Err) : List Event :=
  (if syncRegistered then [Event.Sync] else []) ++
    (match err with
     | some e => [Event.Fatal "FATAL error" e]
     | none => [])

/-- A `return status` of `Execute` with the function-level `err` as it stands:
the deferred calls run, and the run ends.  `logger.Log` is a zap logger (the
handler passes it `zap.Error`), and zap's `Fatal` writes the entry and then
calls `os.Exit(1)`: when `err` is set the process ends inside the handler with
exit status 1 and `Execute` does not return; when `err` is `nil` it returns
`status`. -/
def finish (syncRegistered : Bool) (err : Option Err) (status : ExitStatus)
    (tr : List Event) : Result :=
  { status := status,
    trace := tr ++ deferred syncRegistered err,
    ending :=
      match err with
      | some _ => Ending.exits 1
      | none => Ending.returns status }

/-- Lines 123-125: `If filePrefix not explicitly set, use generated dbName.` -/
def defaultPrefix (cmd : SchemaCmd) (dbName : String) : SchemaCmd :=
  if cmd.filePrefix = "" then { cmd with filePrefix := dbName } else cmd

/-- Lines 172-175: `Populate migration request id and migration type in conv object.` -/
def populateAudit (env : Env) (conv : Conv) : Conv :=
  let conv := { conv with Audit := { conv.Audit with
    MigrationRequestId := (env.GenerateName "smt-job").1 } }
  let conv := { conv with Audit := { conv.Audit with
    MigrationRequestId := strings.Replace conv.Audit.MigrationRequestId "_" "-" (-1) } }
  let conv := { conv with Audit := { conv.Audit with
    MigrationType := some MigrationType.SCHEMA_ONLY } }
  { conv with Audit := { conv.Audit with
    SkipMetricsPopulation := decide (env.Getenv "SKIP_METRICS_POPULATION" = "true") } }

/-- Lines 184-191: take the end time, generate the report, clean up, return
`ExitSuccess`. -/
def report (env : Env) (cmd : SchemaCmd) (pre : Prerequisites) (ioHelper : Streams)
    (conv : Conv) (err : Option Err) (tr : List Event) : Result :=
  let tr := tr ++ [Event.Now]
  let conv := { conv with Audit := { conv.Audit with
    SchemaConversionDuration := env.endTime - env.startTime } }
  let tr := tr ++ [Event.GetBanner env.startTime pre.dbName]
  let banner := env.GetBanner env.startTime pre.dbName
  let tr := tr ++ [Event.GenerateReport pre.sourceProfile.Driver ioHelper.BytesRead banner conv
    cmd.filePrefix pre.dbName ioHelper.Out]
  let tr := tr ++ [Event.RemoveAll env.TempDir env.SMT_TMP_DIR]
  finish true err ExitStatus.ExitSuccess tr

/-- Lines 167-183: write the schema file and the session file, fill in the audit
fields, migrate unless `dryRun`; then `report`.  `tr` is the trace so far and
`err` the function-level `err`. -/
def emit (env : Env) (cmd : SchemaCmd) (pre : Prerequisites) (ioHelper : Streams)
    (conv : Conv) (err : Option Err) (tr : List Event) : Result :=
  let tr := tr ++ [Event.WriteSchemaFile conv env.startTime
    (cmd.filePrefix ++ env.schemaFile) ioHelper.Out pre.sourceProfile.Driver]
  let conv := env.WriteSchemaFile conv env.startTime
    (cmd.filePrefix ++ env.schemaFile) ioHelper.Out pre.sourceProfile.Driver
  let tr := tr ++ [Event.WriteSessionFile conv (cmd.filePrefix ++ env.sessionFile) ioHelper.Out]
  let conv := env.WriteSessionFile conv (cmd.filePrefix ++ env.sessionFile) ioHelper.Out
  let tr := tr ++ [Event.GenerateName "smt-job", Event.Getenv "SKIP_METRICS_POPULATION"]
  let conv := populateAudit env conv
  if cmd.dryRun then report env cmd pre ioHelper conv err tr
  else
    let tr := tr ++ [Event.MigrateDatabase cmd.project pre.targetProfile pre.sourceProfile
      pre.dbName ioHelper cmd conv]
    let m := env.MigrateDatabase cmd.project pre.targetProfile pre.sourceProfile
      pre.dbName ioHelper cmd conv
    match m.2.2 with
    | some e =>
      let err := some (Errorf ("can't finish database migration for db " ++ pre.dbName ++ ": ") e)
      finish true err ExitStatus.ExitFailure tr
    | none => report env cmd pre m.2.1 m.1 none tr

/-- Lines 127-166: build the model, from the session file when `sessionJSON` is
set and from the source otherwise; then `emit`.  The function-level `err` is
assigned by `ReadSessionFile` only: the `err` of `VerifyExpressions`, of
`NewDDLVerifierImpl` and of `SchemaConv` is a variable of the enclosing block
(`err :=` at lines 142 and 150), which the deferred handler does not see.  In
the session branch `conv` is the pointer `MakeConv()` returned, so the
`conv == nil` test of line 163 passes there. -/
def convert (env : Env) (cmd : SchemaCmd) (pre : Prerequisites) (err : Option Err)
    (tr : List Event) : Result :=
  let tr := tr ++ [Event.Now]
  if cmd.sessionJSON ≠ "" then
    let tr := tr ++ [Event.Info ("Loading the conversion context from session file." ++
      " The source profile will not be used for the schema conversion.") cmd.sessionJSON]
    let tr := tr ++ [Event.MakeConv]
    let conv := env.MakeConv
    let tr := tr ++ [Event.ReadSessionFile conv cmd.sessionJSON]
    let r := env.ReadSessionFile conv cmd.sessionJSON
    let conv := r.1
    match r.2 with
    | some e => finish true (some e) ExitStatus.ExitFailure tr
    | none =>
      let tr := tr ++ [Event.NewExpressionVerificationAccessorImpl
        pre.targetProfile.Project pre.targetProfile.Instance]
      let accessor := env.NewExpressionVerificationAccessorImpl
        pre.targetProfile.Project pre.targetProfile.Instance
      let tr := tr ++ [Event.VerifyExpressions accessor conv]
      let v := env.VerifyExpressions accessor conv
      let conv := v.1
      match v.2 with
      | some e' =>
        let tr := tr ++ [Event.Error (Errorf "Error while verifying the expressions " e') none]
        finish true none ExitStatus.ExitFailure tr
      | none => emit env cmd pre pre.ioHelper conv none tr
  else
    let tr := tr ++ [Event.NewDDLVerifierImpl "" ""]
    let d := env.NewDDLVerifierImpl "" ""
    match d.2 with
    | some e' =>
      let tr := tr ++ [Event.Error (Errorf "error trying create ddl verifier: " e') none]
      finish true err ExitStatus.ExitFailure tr
    | none =>
      let tr := tr ++ [Event.SchemaConv cmd.project pre.sourceProfile pre.targetProfile
        pre.ioHelper d.1]
      let c := env.SchemaConv cmd.project pre.sourceProfile pre.targetProfile pre.ioHelper d.1
      match c.2.2 with
      | some _ => finish true err ExitStatus.ExitFailure tr
      | none =>
        match c.1 with
        | none =>
          let tr := tr ++ [Event.Error "Could not initialize conversion context from" none]
          finish true err ExitStatus.ExitFailure tr
        | some conv => emit env cmd pre c.2.1 conv err tr

/-- Lines 118-125, then `convert`: return at once in validate mode, else default
the file prefix and run the conversion. -/
def validateOrConvert (env : Env) (cmd : SchemaCmd) (pre : Prerequisites) (err : Option Err)
    (tr : List Event) : Result :=
  if cmd.validate then
    finish true err ExitStatus.ExitSuccess tr
  else convert env (defaultPrefix cmd pre.dbName) pre err tr

/-- `func (cmd *SchemaCmd) Execute(ctx, f, _) subcommands.ExitStatus`, lines 88-192.
When `InitializeLogger` fails, `logger.Log.Sync` is not yet deferred, and the
handler of lines 92-96 runs with `err` set. -/
def Execute (env : Env) (cmd : SchemaCmd) : Result :=
  let tr := [Event.RemoveAll env.TempDir env.SMT_TMP_DIR]
  let tr := tr ++ [Event.InitializeLogger cmd.logLevel]
  match env.InitializeLogger cmd.logLevel with
  | some e =>
    let tr := tr ++ [Event.Println ("Error initialising logger, did you specify a valid " ++
      "log-level? [DEBUG, INFO, WARN, ERROR, FATAL]") e]
    finish false (some e) ExitStatus.ExitFailure tr
  | none =>
    let tr := tr ++ [Event.PrepareMigrationPrerequisites cmd.sourceProfile cmd.targetProfile
      cmd.source]
    let pre := env.PrepareMigrationPrerequisites cmd.sourceProfile cmd.targetProfile cmd.source
    match pre.err with
    | some e =>
      let err := some (Errorf "error while preparing prerequisites for migration: " e)
      finish true err ExitStatus.ExitUsageError tr
    | none =>
      if cmd.project = "" then
        let tr := tr ++ [Event.GetProject]
        let cmd := { cmd with project := env.GetProject.1 }
        match env.GetProject.2 with
        | some e =>
          let tr := tr ++ [Event.Error ("Could not get project id from gcloud environment or " ++
            "--project flag. Either pass the projectId in the --project flag or configure " ++
            "in gcloud CLI using gcloud config set") (some e)]
          finish true (some e) ExitStatus.ExitUsageError tr
        | none => validateOrConvert env cmd pre none tr
      else validateOrConvert env cmd pre none tr

/-! ## Observing a run -/

/-- The collaborators of the conversion pipeline. -/
inductive Stage where
  | ReadSessionFile
  | VerifyExpressions
  | NewDDLVerifierImpl
  | SchemaConv
  | WriteSchemaFile
  | WriteSessionFile
  | MigrateDatabase
  | GenerateReport
  deriving DecidableEq, Repr

/-- The pipeline collaborator an event is a call of, if any. -/
def Event.stage : Event → Option Stage
  | Event.ReadSessionFile _ _ => some Stage.ReadSessionFile
  | Event.VerifyExpressions _ _ => some Stage.VerifyExpressions
  | Event.NewDDLVerifierImpl _ _ => some Stage.NewDDLVerifierImpl
  | Event.SchemaConv _ _ _ _ _ => some Stage.SchemaConv
  | Event.WriteSchemaFile _ _ _ _ _ => some Stage.WriteSchemaFile
  | Event.WriteSessionFile _ _ _ => some Stage.WriteSessionFile
  | Event.MigrateDatabase _ _ _ _ _ _ _ => some Stage.MigrateDatabase
  | Event.GenerateReport _ _ _ _ _ _ _ => some Stage.GenerateReport
  | _ => none

/-- The pipeline calls of a run, in the order they are made. -/
def stages (r : Result) : List Stage := r.trace.filterMap Event.stage

/-- The pipeline calls of a run with the arguments they receive, in the order they
are made. -/
def pipelineCalls (r : Result) : List Event := r.trace.filter (fun e => e.stage.isSome)

/-- Log entries at error or fatal level: `logger.Log.Error` and `logger.Log.Fatal`. -/
def Event.isErrorLog : Event → Bool
  | Event.Error _ _ => true
  | Event.Fatal _ _ => true
  | _ => false

/-- The results of `PrepareMigrationPrerequisites` in a run. -/
def prerequisites (env : Env) (cmd : SchemaCmd) : Prerequisites :=
  env.PrepareMigrationPrerequisites cmd.sourceProfile cmd.targetProfile cmd.source

/-- The receiver `cmd` as it stands from line 126 on: `project` taken from
`GetProject` when the flag was empty, `filePrefix` from `dbName` when the flag
was empty. -/
def resolved (env : Env) (cmd : SchemaCmd) : SchemaCmd :=
  defaultPrefix (if cmd.project = "" then { cmd with project := env.GetProject.1 } else cmd)
    (prerequisites env cmd).dbName

/-- The run gets to the conversion step at line 127: the logger is initialised,
the prerequisites are prepared, the project is given or found, and `validate`
is not set. -/
def ReachesConversion (env : Env) (cmd : SchemaCmd) : Prop :=
  env.InitializeLogger cmd.logLevel = none ∧
  (prerequisites env cmd).err = none ∧
  (cmd.project = "" → env.GetProject.2 = none) ∧
  cmd.validate = false

/-- The expression verification accessor built at line 138. -/
def accessorOf (env : Env) (cmd : SchemaCmd) : Nat :=
  env.NewExpressionVerificationAccessorImpl (prerequisites env cmd).targetProfile.Project
    (prerequisites env cmd).targetProfile.Instance

/-- The result of `SchemaConv` as called at line 158. -/
def schemaConvResult (env : Env) (cmd : SchemaCmd) : Option Conv × Streams × Option Err :=
  env.SchemaConv (resolved env cmd).project (prerequisites env cmd).sourceProfile
    (prerequisites env cmd).targetProfile (prerequisites env cmd).ioHelper
    (env.NewDDLVerifierImpl "" "").1

/-- The conversion step of lines 128-166 yields the non-nil model `conv` without
error, leaving `ioHelper` as `io`: in session mode `ReadSessionFile` and then
`VerifyExpressions` return no error; in source mode the DDL verifier is created
and `SchemaConv` returns a non-nil model and no error. -/
def Produces (env : Env) (cmd : SchemaCmd) (conv : Conv) (io : Streams) : Prop :=
  (cmd.sessionJSON ≠ "" ∧
    (env.ReadSessionFile env.MakeConv cmd.sessionJSON).2 = none ∧
    env.VerifyExpressions (accessorOf env cmd)
      (env.ReadSessionFile env.MakeConv cmd.sessionJSON).1 = (conv, none) ∧
    io = (prerequisites env cmd).ioHelper) ∨
  (cmd.sessionJSON = "" ∧
    (env.NewDDLVerifierImpl "" "").2 = none ∧
    schemaConvResult env cmd = (some conv, io, none))

/-- The model as `WriteSessionFile` receives it at line 169: what `WriteSchemaFile`
left of the model `conv` of the conversion step. -/
def modelAtSessionWrite (env : Env) (cmd : SchemaCmd) (conv : Conv) (io : Streams) : Conv :=
  env.WriteSchemaFile conv env.startTime ((resolved env cmd).filePrefix ++ env.schemaFile)
    io.Out (prerequisites env cmd).sourceProfile.Driver

/-- The model as `MigrateDatabase` receives it at line 177 (and, in a dry run,
as it stands at line 176): what the two writers left, with the audit fields of
lines 172-175. -/
def modelAtMigrate (env : Env) (cmd : SchemaCmd) (conv : Conv) (io : Streams) : Conv :=
  populateAudit env (env.WriteSessionFile (modelAtSessionWrite env cmd conv io)
    ((resolved env cmd).filePrefix ++ env.sessionFile) io.Out)

/-- Every `'_'` replaced by `'-'`, character by character: the words of the
description of the migration request id, to compare `strings.Replace` with. -/
def dashed (g : String) : String :=
  String.mk (g.data.map fun c => if c = '_' then '-' else c)

/-! ## Sample runs -/

/-- A model with nothing in it and no audit field set. -/
def emptyConv : Conv :=
  { Audit := { MigrationRequestId := "", MigrationType := none,
               SkipMetricsPopulation := false, SchemaConversionDuration := 0 },
    schema := "" }

/-- An environment in which every collaborator succeeds: the session store loads
the schema `"loaded"`, the source conversion produces `"converted"`, the
writers, the migration and the report leave the model as it is. -/
def calmEnv : Env where
  TempDir := "/tmp"
  SMT_TMP_DIR := "smt-tmp"
  schemaFile := ".schema.txt"
  sessionFile := ".session.json"
  InitializeLogger := fun _ => none
  PrepareMigrationPrerequisites := fun _ _ _ =>
    { sourceProfile := { Driver := "mysqldump" },
      targetProfile := { Project := "tp", Instance := "ti" },
      ioHelper := { Out := "stdout", BytesRead := 0 },
      dbName := "mysqldump_2026", err := none }
  GetProject := ("gcloud-project", none)
  startTime := 10
  MakeConv := emptyConv
  ReadSessionFile := fun c _ => ({ c with schema := "loaded" }, none)
  NewExpressionVerificationAccessorImpl := fun _ _ => 1
  VerifyExpressions := fun _ c => (c, none)
  NewDDLVerifierImpl := fun _ _ => (2, none)
  SchemaConv := fun _ _ _ io _ =>
    (some { emptyConv with schema := "converted" }, { io with BytesRead := 64 }, none)
  WriteSchemaFile := fun c _ _ _ _ => c
  WriteSessionFile := fun c _ _ => c
  GenerateName := fun p => (p ++ "_7f_c2", none)
  Getenv := fun _ => ""
  MigrateDatabase := fun _ _ _ _ io _ c => (c, io, none)
  endTime := 25
  GetBanner := fun _ dbName => dbName
  GenerateReport := fun _ _ _ c _ _ _ => c

/-- As `calmEnv`, but the session file cannot be read. -/
def corruptSessionEnv : Env :=
  { calmEnv with ReadSessionFile := fun c _ => (c, some "unexpected end of JSON input") }

/-- As `calmEnv`, but expression verification returns an error. -/
def unreachableTargetEnv : Env :=
  { calmEnv with VerifyExpressions := fun _ c => (c, some "target unavailable") }

/-- As `calmEnv`, but the DDL verifier cannot be created. -/
def noVerifierEnv : Env :=
  { calmEnv with NewDDLVerifierImpl := fun _ _ => (0, some "no credentials") }

/-- As `calmEnv`, but the source schema cannot be converted. -/
def badSourceEnv : Env :=
  { calmEnv with SchemaConv := fun _ _ _ io _ => (none, io, some "can't parse dump") }

/-- As `calmEnv`, but the database migration fails. -/
def failingMigrationEnv : Env :=
  { calmEnv with MigrateDatabase := fun _ _ _ _ io _ c => (c, io, some "permission denied") }

/-- As `calmEnv`, but the prerequisites cannot be prepared. -/
def badProfileEnv : Env :=
  { calmEnv with PrepareMigrationPrerequisites := fun _ _ _ =>
      { sourceProfile := { Driver := "" }, targetProfile := { Project := "", Instance := "" },
        ioHelper := { Out := "", BytesRead := 0 }, dbName := "",
        err := some "unknown source" } }

/-- As `calmEnv`, but no project can be found in the gcloud environment. -/
def noProjectEnv : Env :=
  { calmEnv with GetProject := ("", some "gcloud not configured") }

/-- `schema -source=mysql -source-profile=file=dump.sql -project=p1`. -/
def sourceCmd : SchemaCmd :=
  { source := "mysql", sourceProfile := "file=dump.sql", target := "Spanner",
    targetProfile := "", filePrefix := "", project := "p1", logLevel := "DEBUG",
    dryRun := false, validate := false, sessionJSON := "" }

/-- `schema -session=old.session.json -prefix=out -project=p1 ...`. -/
def sessionCmd : SchemaCmd :=
  { sourceCmd with filePrefix := "out", sessionJSON := "old.session.json" }

/-! ## `strings.Replace` of `"_"` by `"-"` -/

theorem sliceTo_len_append (a b : List Char) (k : Nat) :
    strings.sliceTo (strings.len a + k) (a ++ b) = a ++ strings.sliceTo k b := by
  induction a with
  | nil => simp [strings.len]
  | cons c cs ih =>
    have hpos : 0 < c.utf8Size := Char.utf8Size_pos c
    obtain ⟨m, hm⟩ : ∃ m, strings.len (c :: cs) + k = m + 1 :=
      ⟨c.utf8Size - 1 + strings.len cs + k, by simp only [strings.len]; omega⟩
    have hm' : m + 1 - c.utf8Size = strings.len cs + k := by
      simp only [strings.len] at hm; omega
    rw [hm, List.cons_append, strings.sliceTo, hm', ih]
    rfl

theorem sliceFrom_len_append (a b : List Char) (k : Nat) :
    strings.sliceFrom (strings.len a + k) (a ++ b) = strings.sliceFrom k b := by
  induction a with
  | nil => simp [strings.len]
  | cons c cs ih =>
    have hpos : 0 < c.utf8Size := Char.utf8Size_pos c
    obtain ⟨m, hm⟩ : ∃ m, strings.len (c :: cs) + k = m + 1 :=
      ⟨c.utf8Size - 1 + strings.len cs + k, by simp only [strings.len]; omega⟩
    have hm' : m + 1 - c.utf8Size = strings.len cs + k := by
      simp only [strings.len] at hm; omega
    rw [hm, List.cons_append, strings.sliceFrom, hm', ih]

theorem len_append (a b : List Char) :
    strings.len (a ++ b) = strings.len a + strings.len b := by
  induction a with
  | nil => simp [strings.len]
  | cons c cs ih =>
    show strings.len (c :: (cs ++ b)) = strings.len (c :: cs) + strings.len b
    simp only [strings.len, ih]
    omega

theorem sliceTo_zero (s : List Char) : strings.sliceTo 0 s = [] := by
  cases s <;> rfl

theorem sliceFrom_zero (s : List Char) : strings.sliceFrom 0 s = s := by
  cases s <;> rfl

/-- `strings.Index` finds an occurrence: it returns the byte length of what
precedes the first occurrence it reports. -/
theorem Index_some (s substr : List Char) (i : Nat) (h : strings.Index s substr = some i) :
    ∃ a b, s = a ++ substr ++ b ∧ i = strings.len a := by
  induction s generalizing i with
  | nil =>
    by_cases hs : substr = []
    · simp [strings.Index, hs] at h
      exact ⟨[], [], by simp [hs], by simp [strings.len, ← h]⟩
    · simp [strings.Index, hs] at h
  | cons c cs ih =>
    simp only [strings.Index] at h
    split at h
    · rename_i hp
      obtain ⟨b, hb⟩ := List.isPrefixOf_iff_prefix.mp hp
      simp at h
      exact ⟨[], b, by simp [hb], by simp [strings.len, ← h]⟩
    · simp at h
      obtain ⟨j, hj, rfl⟩ := h
      obtain ⟨a, b, hab, hja⟩ := ih j hj
      exact ⟨c :: a, b, by simp [hab], by simp only [strings.len]; omega⟩

/-- The fuel `s.length` is enough for the loop of `strings.Count`: more fuel does
not change the count. -/
theorem countLoop_fuel (substr : List Char) (hne : substr ≠ []) (fuel : Nat) :
    ∀ s : List Char, s.length ≤ fuel →
      strings.countLoop substr fuel s = strings.countLoop substr s.length s := by
  induction fuel using Nat.strong_induction_on with
  | _ fuel ih =>
    intro s hs
    have hpos : 0 < substr.length := List.length_pos.mpr hne
    cases fuel with
    | zero =>
      have : s.length = 0 := by omega
      rw [this]
    | succ fuel =>
      cases hl : s.length with
      | zero =>
        have : s = [] := List.length_eq_zero.mp hl
        subst this
        simp [strings.countLoop, strings.Index, hne]
      | succ n =>
        simp only [strings.countLoop]
        cases hi : strings.Index s substr with
        | none => rfl
        | some i =>
          obtain ⟨a, b, hab, hia⟩ := Index_some s substr i hi
          have hcut : strings.sliceFrom (i + strings.len substr) s = b := by
            have h1 := sliceFrom_len_append (a ++ substr) b 0
            rw [len_append, Nat.add_zero, sliceFrom_zero] at h1
            rw [hab, hia, h1]
          have hd : b.length ≤ n := by
            have : s.length = a.length + substr.length + b.length := by
              rw [hab]; simp only [List.length_append]
            omega
          simp only [hcut]
          rw [ih fuel (Nat.lt_succ_self _) _ (by omega), ih n (by omega) _ hd]

theorem Index_underscore_nil : strings.Index [] ['_'] = none := by
  simp [strings.Index]

theorem Index_underscore_cons (c : Char) (cs : List Char) :
    strings.Index (c :: cs) ['_'] =
      if c = '_' then some 0 else (strings.Index cs ['_']).map (· + c.utf8Size) := by
  by_cases h : c = '_'
  · subst h; simp [strings.Index, List.isPrefixOf]
  · have h' : ¬ '_' = c := fun e => h e.symm
    simp [strings.Index, List.isPrefixOf, h, h']

theorem Index_underscore_none (s : List Char) (h : strings.Index s ['_'] = none) :
    s.map (fun c => if c = '_' then '-' else c) = s := by
  induction s with
  | nil => rfl
  | cons c cs ih =>
    rw [Index_underscore_cons] at h
    by_cases hc : c = '_'
    · simp [hc] at h
    · simp [hc] at h
      simp [hc, ih h]

theorem Index_underscore_some (s : List Char) (j : Nat) (h : strings.Index s ['_'] = some j) :
    s.map (fun c => if c = '_' then '-' else c) =
      strings.sliceTo j s ++
        '-' :: (strings.sliceFrom (j + strings.len ['_']) s).map
          (fun c => if c = '_' then '-' else c) ∧
    (strings.sliceFrom (j + strings.len ['_']) s).length < s.length := by
  have hlen : strings.len ['_'] = 1 := rfl
  rw [hlen]
  induction s generalizing j with
  | nil => simp [Index_underscore_nil] at h
  | cons c cs ih =>
    rw [Index_underscore_cons] at h
    by_cases hc : c = '_'
    · simp [hc] at h
      subst h
      subst hc
      have h1 : (0 : Nat) + 1 - Char.utf8Size '_' = 0 := rfl
      simp [strings.sliceTo, strings.sliceFrom, h1, sliceFrom_zero]
    · simp [hc] at h
      obtain ⟨i, hi, rfl⟩ := h
      obtain ⟨h1, h2⟩ := ih i hi
      have hpos : 0 < c.utf8Size := Char.utf8Size_pos c
      obtain ⟨m, hm⟩ : ∃ m, i + c.utf8Size = m + 1 := ⟨i + c.utf8Size - 1, by omega⟩
      have hm1 : m + 1 - c.utf8Size = i := by omega
      have hm2 : m + 1 + 1 - c.utf8Size = i + 1 := by omega
      constructor
      · rw [hm]
        simp only [List.map_cons, if_neg hc, strings.sliceTo, strings.sliceFrom, hm1, hm2,
          List.cons_append]
        rw [h1]
      · rw [hm]
        simp only [strings.sliceFrom, hm2, List.length_cons]
        omega

/-- With as many rounds as `Count` finds occurrences, the replacement loop turns
every `'_'` into `'-'`. -/
theorem replaceLoop_countLoop (fuel : Nat) (s : List Char) (h : s.length ≤ fuel) :
    strings.replaceLoop ['_'] ['-'] (strings.countLoop ['_'] fuel s) s =
      s.map (fun c => if c = '_' then '-' else c) := by
  induction fuel generalizing s with
  | zero =>
    have : s = [] := List.length_eq_zero.mp (Nat.le_zero.mp h)
    subst this
    simp [strings.countLoop, strings.replaceLoop]
  | succ fuel ih =>
    cases hi : strings.Index s ['_'] with
    | none =>
      simp [strings.countLoop, hi, strings.replaceLoop, Index_underscore_none s hi]
    | some j =>
      obtain ⟨h1, h2⟩ := Index_underscore_some s j hi
      have hlen : (strings.sliceFrom (j + strings.len ['_']) s).length ≤ fuel := by omega
      have e : 1 + strings.countLoop ['_'] fuel (strings.sliceFrom (j + strings.len ['_']) s) =
          strings.countLoop ['_'] fuel (strings.sliceFrom (j + strings.len ['_']) s) + 1 := by
        omega
      simp only [strings.countLoop, hi, e, strings.replaceLoop]
      rw [ih _ hlen, h1]
      simp

/-- `strings.Replace(g, "_", "-", -1)` is `g` with every `'_'` replaced by `'-'`. -/
theorem Replace_underscore (g : String) : strings.Replace g "_" "-" (-1) = dashed g := by
  have key := replaceLoop_countLoop g.data.length g.data (le_refl _)
  have h1 : ¬ (("_" : String) = "-" ∨ (-1 : Int) = 0) := by decide
  have h2 : ("_" : String).data = ['_'] := rfl
  have h3 : ("-" : String).data = ['-'] := rfl
  unfold strings.Replace
  rw [if_neg h1]
  simp only [h2, h3, strings.Count]
  simp only [List.cons_ne_nil, if_false]
  by_cases hm : strings.countLoop ['_'] g.data.length g.data = 0
  · rw [hm] at key
    simp only [hm, if_true]
    simp only [strings.replaceLoop] at key
    unfold dashed
    rw [← key]
  · have h4 : (-1 : Int) < 0 := by decide
    simp only [hm, if_false, h4, true_or, if_true]
    unfold dashed
    rw [key]

theorem dashed_length (g : String) : (dashed g).length = g.length := by
  unfold dashed
  exact List.length_map _ _

theorem dashed_utf8ByteSize (g : String) : (dashed g).utf8ByteSize = g.utf8ByteSize := by
  have aux : ∀ l : List Char,
      String.utf8ByteSize.go (l.map fun c => if c = '_' then '-' else c) =
        String.utf8ByteSize.go l := by
    intro l
    induction l with
    | nil => rfl
    | cons c cs ih =>
      simp only [List.map_cons, String.utf8ByteSize.go, ih]
      by_cases hc : c = '_'
      · subst hc; rfl
      · simp [hc]
  exact aux g.data

theorem dashed_no_underscore (g : String) : '_' ∉ (dashed g).data := by
  simp only [dashed, List.mem_map, not_exists, not_and]
  intro c _ hc
  by_cases h : c = '_'
  · simp [h] at hc
  · simp [h] at hc

theorem dashed_getElem? (g : String) (i : Nat) (h : g.data[i]? ≠ some '_') :
    (dashed g).data[i]? = g.data[i]? := by
  simp only [dashed, List.getElem?_map]
  cases hc : g.data[i]? with
  | none => rfl
  | some c =>
    have : c ≠ '_' := fun e => h (by rw [hc, e])
    simp [this]

theorem dashed_of_no_underscore (g : String) (h : '_' ∉ g.data) : dashed g = g := by
  have : g.data.map (fun c => if c = '_' then '-' else c) = g.data := by
    conv_rhs => rw [← List.map_id g.data]
    apply List.map_congr_left
    intro c hc
    have : c ≠ '_' := fun e => h (e ▸ hc)
    simp [this]
  simp only [dashed, this]

/-! ## The paths of `Execute` -/

theorem resolved_sessionJSON (env : Env) (cmd : SchemaCmd) :
    (resolved env cmd).sessionJSON = cmd.sessionJSON := by
  unfold resolved defaultPrefix
  split <;> split <;> rfl

theorem resolved_dryRun (env : Env) (cmd : SchemaCmd) :
    (resolved env cmd).dryRun = cmd.dryRun := by
  unfold resolved defaultPrefix
  split <;> split <;> rfl

/-- A run that reaches the conversion step is the conversion step run on the
resolved command, after calls that are neither pipeline calls nor error logs. -/
theorem Execute_of_reaches (env : Env) (cmd : SchemaCmd) (h : ReachesConversion env cmd) :
    ∃ tr : List Event, (∀ e ∈ tr, e.stage = none ∧ e.isErrorLog = false) ∧
      Execute env cmd = convert env (resolved env cmd) (prerequisites env cmd) none tr := by
  obtain ⟨h1, h2, h3, h4⟩ := h
  simp only [prerequisites] at h2
  by_cases hp : cmd.project = ""
  · refine ⟨[Event.RemoveAll env.TempDir env.SMT_TMP_DIR, Event.InitializeLogger cmd.logLevel,
      Event.PrepareMigrationPrerequisites cmd.sourceProfile cmd.targetProfile cmd.source,
      Event.GetProject], ?_, ?_⟩
    · simp [Event.stage, Event.isErrorLog]
    · simp [Execute, validateOrConvert, resolved, prerequisites, h1, h2, h3 hp, h4, hp]
  · refine ⟨[Event.RemoveAll env.TempDir env.SMT_TMP_DIR, Event.InitializeLogger cmd.logLevel,
      Event.PrepareMigrationPrerequisites cmd.sourceProfile cmd.targetProfile cmd.source],
      ?_, ?_⟩
    · simp [Event.stage, Event.isErrorLog]
    · simp [Execute, validateOrConvert, resolved, prerequisites, h1, h2, h4, hp]

theorem filterMap_stage_nil (tr : List Event)
    (h : ∀ e ∈ tr, e.stage = none ∧ e.isErrorLog = false) : tr.filterMap Event.stage = [] := by
  simp only [List.filterMap_eq_nil_iff]
  exact fun e he => (h e he).1

theorem filter_stage_nil (tr : List Event)
    (h : ∀ e ∈ tr, e.stage = none ∧ e.isErrorLog = false) (p : Option Stage → Bool)
    (hp : p none = false) : tr.filter (fun e => p e.stage) = [] := by
  simp only [List.filter_eq_nil_iff]
  intro e he
  simp [(h e he).1, hp]

theorem mem_stages_of_mem (r : Result) (e : Event) (s : Stage) (he : e ∈ r.trace)
    (hs : e.stage = some s) : s ∈ stages r := by
  simp only [stages, List.mem_filterMap]
  exact ⟨e, he, hs⟩

/-- A run that does not reach the conversion step makes no pipeline call. -/
theorem stages_of_not_reaches (env : Env) (cmd : SchemaCmd) (h : ¬ ReachesConversion env cmd) :
    stages (Execute env cmd) = [] := by
  simp only [ReachesConversion, prerequisites] at h
  simp only [Execute, validateOrConvert, finish, stages]
  repeat' split
  all_goals simp_all [deferred, Event.stage]

open Stage in
/-- The pipeline calls of any run form one of eleven sequences. -/
theorem stages_cases (env : Env) (cmd : SchemaCmd) :
    stages (Execute env cmd) ∈ ([[],
      [ReadSessionFile], [ReadSessionFile, VerifyExpressions],
      [ReadSessionFile, VerifyExpressions, WriteSchemaFile, WriteSessionFile, GenerateReport],
      [ReadSessionFile, VerifyExpressions, WriteSchemaFile, WriteSessionFile, MigrateDatabase],
      [ReadSessionFile, VerifyExpressions, WriteSchemaFile, WriteSessionFile, MigrateDatabase,
        GenerateReport],
      [NewDDLVerifierImpl], [NewDDLVerifierImpl, SchemaConv],
      [NewDDLVerifierImpl, SchemaConv, WriteSchemaFile, WriteSessionFile, GenerateReport],
      [NewDDLVerifierImpl, SchemaConv, WriteSchemaFile, WriteSessionFile, MigrateDatabase],
      [NewDDLVerifierImpl, SchemaConv, WriteSchemaFile, WriteSessionFile, MigrateDatabase,
        GenerateReport]] : List (List Stage)) := by
  simp only [Execute, validateOrConvert, convert, emit, report, finish, stages]
  repeat' split
  all_goals simp [deferred, Event.stage]

/-! ## Which calls a run makes -/

/-- Claim C1 as stated fails at two runs that reach the conversion step: with a
session file that cannot be read, `VerifyExpressions` is not called although
`sessionJSON` is set; and with no session file and no DDL verifier, `SchemaConv`
is not called. -/
theorem mode_selection_counterexample :
    (ReachesConversion corruptSessionEnv sessionCmd ∧ sessionCmd.sessionJSON ≠ "" ∧
      Stage.VerifyExpressions ∉ stages (Execute corruptSessionEnv sessionCmd)) ∧
    (ReachesConversion noVerifierEnv sourceCmd ∧ sourceCmd.sessionJSON = "" ∧
      Stage.SchemaConv ∉ stages (Execute noVerifierEnv sourceCmd)) := by
  unfold ReachesConversion
  decide

/-- Claim C1, amended: in a run that reaches the conversion step, with
`sessionJSON` set the first pipeline call is `ReadSessionFile` on the
`MakeConv()` model, followed, when it returns no error, by `VerifyExpressions`
on that model (and by nothing when it returns an error), and neither
`SchemaConv` nor `NewDDLVerifierImpl` is called; with `sessionJSON` empty the
first pipeline call is `NewDDLVerifierImpl`, followed, when it returns no
error, by `SchemaConv` (and by nothing otherwise), and neither
`ReadSessionFile` nor `VerifyExpressions` is called. -/
theorem mode_selection (env : Env) (cmd : SchemaCmd) (h : ReachesConversion env cmd) :
    (cmd.sessionJSON ≠ "" →
      ((env.ReadSessionFile env.MakeConv cmd.sessionJSON).2 = none →
        (pipelineCalls (Execute env cmd)).take 2 =
          [Event.ReadSessionFile env.MakeConv cmd.sessionJSON,
           Event.VerifyExpressions (accessorOf env cmd)
             (env.ReadSessionFile env.MakeConv cmd.sessionJSON).1]) ∧
      ((env.ReadSessionFile env.MakeConv cmd.sessionJSON).2 ≠ none →
        pipelineCalls (Execute env cmd) =
          [Event.ReadSessionFile env.MakeConv cmd.sessionJSON]) ∧
      Stage.SchemaConv ∉ stages (Execute env cmd) ∧
      Stage.NewDDLVerifierImpl ∉ stages (Execute env cmd)) ∧
    (cmd.sessionJSON = "" →
      ((env.NewDDLVerifierImpl "" "").2 = none →
        (pipelineCalls (Execute env cmd)).take 2 =
          [Event.NewDDLVerifierImpl "" "",
           Event.SchemaConv (resolved env cmd).project (prerequisites env cmd).sourceProfile
             (prerequisites env cmd).targetProfile (prerequisites env cmd).ioHelper
             (env.NewDDLVerifierImpl "" "").1]) ∧
      ((env.NewDDLVerifierImpl "" "").2 ≠ none →
        pipelineCalls (Execute env cmd) = [Event.NewDDLVerifierImpl "" ""]) ∧
      Stage.ReadSessionFile ∉ stages (Execute env cmd) ∧
      Stage.VerifyExpressions ∉ stages (Execute env cmd)) := by
  obtain ⟨tr, htr, hE⟩ := Execute_of_reaches env cmd h
  have hf := filterMap_stage_nil tr htr
  have hg : tr.filter (fun e => e.stage.isSome) = [] := filter_stage_nil tr htr Option.isSome rfl
  simp only [hE, accessorOf, ← resolved_sessionJSON env cmd]
  generalize resolved env cmd = c at *
  generalize prerequisites env cmd = pre at *
  simp only [convert, emit, report, finish, stages, pipelineCalls]
  repeat' split
  all_goals simp only [List.filter_append, List.filterMap_append, hg, hf, List.nil_append]
  all_goals clear hg hf htr hE
  all_goals simp_all [deferred, Event.stage, List.filter_cons]

/-- A run of claim C1: resuming from `old.session.json` in the calm environment. -/
theorem mode_selection_witness :
    ReachesConversion calmEnv sessionCmd ∧
    (pipelineCalls (Execute calmEnv sessionCmd)).take 2 =
      [Event.ReadSessionFile emptyConv "old.session.json",
       Event.VerifyExpressions 1 { emptyConv with schema := "loaded" }] ∧
    Stage.SchemaConv ∉ stages (Execute calmEnv sessionCmd) :=
  have hr : ReachesConversion calmEnv sessionCmd := by unfold ReachesConversion; decide
  ⟨hr, ((mode_selection calmEnv sessionCmd hr).1 (by decide)).1 (by decide),
    ((mode_selection calmEnv sessionCmd hr).1 (by decide)).2.2.1⟩

/-- Claim C2: in a run with `validate` unset in which the prerequisites and the
project are resolved and the conversion step yields the non-nil model `conv`
without error, `WriteSessionFile` is called exactly once, with that model (as
`WriteSchemaFile` left it) and the file name `filePrefix+sessionFile`; this
holds for either value of `dryRun`, for either mode, and whatever
`MigrateDatabase` returns. -/
theorem session_file_written_once (env : Env) (cmd : SchemaCmd) (conv : Conv) (io : Streams)
    (h : ReachesConversion env cmd) (hp : Produces env cmd conv io) :
    (Execute env cmd).trace.filter (fun e => decide (e.stage = some Stage.WriteSessionFile)) =
      [Event.WriteSessionFile (modelAtSessionWrite env cmd conv io)
        ((resolved env cmd).filePrefix ++ env.sessionFile) io.Out] := by
  obtain ⟨tr, htr, hE⟩ := Execute_of_reaches env cmd h
  have htr' : tr.filter (fun e => decide (e.stage = some Stage.WriteSessionFile)) = [] := by
    simp only [List.filter_eq_nil_iff]
    intro e he
    simp [(htr e he).1]
  rw [hE]
  simp only [Produces, modelAtSessionWrite, accessorOf, schemaConvResult,
    ← resolved_sessionJSON env cmd] at hp ⊢
  generalize resolved env cmd = c at *
  generalize prerequisites env cmd = pre at *
  rcases hp with ⟨hs, hr, hv, hio⟩ | ⟨hs, hd, hc⟩
  · subst hio
    simp only [convert, emit, report, finish, hs, hr, hv]
    repeat' split
    all_goals simp_all [deferred, Event.stage, List.filter_cons, List.filter_append]
  · simp only [convert, emit, report, finish, hs, hd, hc]
    repeat' split
    all_goals simp_all [deferred, Event.stage, List.filter_cons, List.filter_append]

/-- A run of claim C2: conversion from the source with a failing migration; the
session file `mysqldump_2026.session.json` is written once all the same. -/
theorem session_file_written_once_witness :
    ReachesConversion failingMigrationEnv sourceCmd ∧
    Produces failingMigrationEnv sourceCmd { emptyConv with schema := "converted" }
      { Out := "stdout", BytesRead := 64 } ∧
    (Execute failingMigrationEnv sourceCmd).trace.filter
        (fun e => decide (e.stage = some Stage.WriteSessionFile)) =
      [Event.WriteSessionFile { emptyConv with schema := "converted" }
        "mysqldump_2026.session.json" "stdout"] :=
  have hr : ReachesConversion failingMigrationEnv sourceCmd := by
    unfold ReachesConversion; decide
  have hp : Produces failingMigrationEnv sourceCmd { emptyConv with schema := "converted" }
      { Out := "stdout", BytesRead := 64 } := by
    unfold Produces; decide
  ⟨hr, hp, session_file_written_once failingMigrationEnv sourceCmd _ _ hr hp⟩

/-- Claim C3: in a run that reaches the conversion step and cannot build the model
(`ReadSessionFile` returns an error in session mode; or, in source mode, the
DDL verifier cannot be created, or `SchemaConv` returns an error, or it returns
a nil model), `Execute` returns `ExitFailure` and calls none of
`WriteSchemaFile`, `WriteSessionFile`, `MigrateDatabase`, `GenerateReport`; when
it is `ReadSessionFile` that fails, `VerifyExpressions` is not called either. -/
theorem no_model_no_output (env : Env) (cmd : SchemaCmd) (h : ReachesConversion env cmd)
    (hf : (cmd.sessionJSON ≠ "" ∧ (env.ReadSessionFile env.MakeConv cmd.sessionJSON).2 ≠ none) ∨
      (cmd.sessionJSON = "" ∧ (env.NewDDLVerifierImpl "" "").2 ≠ none) ∨
      (cmd.sessionJSON = "" ∧ (env.NewDDLVerifierImpl "" "").2 = none ∧
        (schemaConvResult env cmd).2.2 ≠ none) ∨
      (cmd.sessionJSON = "" ∧ (env.NewDDLVerifierImpl "" "").2 = none ∧
        (schemaConvResult env cmd).2.2 = none ∧ (schemaConvResult env cmd).1 = none)) :
    (Execute env cmd).status = ExitStatus.ExitFailure ∧
    Stage.WriteSchemaFile ∉ stages (Execute env cmd) ∧
    Stage.WriteSessionFile ∉ stages (Execute env cmd) ∧
    Stage.MigrateDatabase ∉ stages (Execute env cmd) ∧
    Stage.GenerateReport ∉ stages (Execute env cmd) ∧
    (cmd.sessionJSON ≠ "" → Stage.VerifyExpressions ∉ stages (Execute env cmd)) := by
  obtain ⟨tr, htr, hE⟩ := Execute_of_reaches env cmd h
  have hg := filterMap_stage_nil tr htr
  simp only [hE, schemaConvResult, ← resolved_sessionJSON env cmd] at hf ⊢
  generalize resolved env cmd = c at *
  generalize prerequisites env cmd = pre at *
  simp only [convert, emit, report, finish, stages]
  repeat' split
  all_goals simp_all [deferred, Event.stage]

/-- A run of claim C3: the source dump cannot be parsed. -/
theorem no_model_no_output_witness :
    ReachesConversion badSourceEnv sourceCmd ∧
    (schemaConvResult badSourceEnv sourceCmd).2.2 ≠ none ∧
    (Execute badSourceEnv sourceCmd).status = ExitStatus.ExitFailure ∧
    Stage.WriteSessionFile ∉ stages (Execute badSourceEnv sourceCmd) :=
  have hr : ReachesConversion badSourceEnv sourceCmd := by unfold ReachesConversion; decide
  have hf : (schemaConvResult badSourceEnv sourceCmd).2.2 ≠ none := by decide
  have hc := no_model_no_output badSourceEnv sourceCmd hr
    (Or.inr (Or.inr (Or.inl ⟨by decide, by decide, hf⟩)))
  ⟨hr, hf, hc.1, hc.2.2.1⟩

/-! ## Verification errors, order of the stages, audit fields -/

/-- Claim C5: in any run the pipeline calls are made in pipeline order, each at
most once: leaving the creation of the DDL verifier aside, they form a
subsequence of `ReadSessionFile, VerifyExpressions, WriteSchemaFile,
WriteSessionFile, MigrateDatabase, GenerateReport` or of `SchemaConv,
WriteSchemaFile, WriteSessionFile, MigrateDatabase, GenerateReport`.
`WriteSchemaFile` comes only after the model-producing step, `WriteSessionFile`
only after `WriteSchemaFile`, `MigrateDatabase` only after `WriteSessionFile`,
and `GenerateReport` only after `WriteSessionFile`. -/
theorem stages_in_pipeline_order (env : Env) (cmd : SchemaCmd) :
    (List.Sublist ((stages (Execute env cmd)).filter (fun s => s ≠ Stage.NewDDLVerifierImpl))
        [Stage.ReadSessionFile, Stage.VerifyExpressions, Stage.WriteSchemaFile,
          Stage.WriteSessionFile, Stage.MigrateDatabase, Stage.GenerateReport] ∨
      List.Sublist ((stages (Execute env cmd)).filter (fun s => s ≠ Stage.NewDDLVerifierImpl))
        [Stage.SchemaConv, Stage.WriteSchemaFile, Stage.WriteSessionFile,
          Stage.MigrateDatabase, Stage.GenerateReport]) ∧
    (stages (Execute env cmd)).Nodup ∧
    (Stage.WriteSchemaFile ∈ stages (Execute env cmd) →
      List.Sublist [Stage.SchemaConv, Stage.WriteSchemaFile] (stages (Execute env cmd)) ∨
      List.Sublist [Stage.ReadSessionFile, Stage.VerifyExpressions, Stage.WriteSchemaFile]
        (stages (Execute env cmd))) ∧
    (Stage.WriteSessionFile ∈ stages (Execute env cmd) →
      List.Sublist [Stage.WriteSchemaFile, Stage.WriteSessionFile]
        (stages (Execute env cmd))) ∧
    (Stage.MigrateDatabase ∈ stages (Execute env cmd) →
      List.Sublist [Stage.WriteSessionFile, Stage.MigrateDatabase]
        (stages (Execute env cmd))) ∧
    (Stage.GenerateReport ∈ stages (Execute env cmd) →
      List.Sublist [Stage.WriteSessionFile, Stage.GenerateReport]
        (stages (Execute env cmd))) := by
  have h := stages_cases env cmd
  simp only [List.mem_cons, List.mem_singleton, List.not_mem_nil, or_false] at h
  rcases h with h | h | h | h | h | h | h | h | h | h | h <;> rw [h] <;> decide

/-- A run of claim C5: in the calm environment the stages of a conversion from the
source come in pipeline order. -/
theorem stages_in_pipeline_order_witness :
    stages (Execute calmEnv sourceCmd) =
      [Stage.NewDDLVerifierImpl, Stage.SchemaConv, Stage.WriteSchemaFile,
        Stage.WriteSessionFile, Stage.MigrateDatabase, Stage.GenerateReport] ∧
    List.Sublist [Stage.WriteSessionFile, Stage.GenerateReport]
      (stages (Execute calmEnv sourceCmd)) :=
  ⟨by decide, (stages_in_pipeline_order calmEnv sourceCmd).2.2.2.2.2 (by decide)⟩

/-- Claim C6 as stated fails: in a conversion from the source in the calm
environment, the model passed to `WriteSessionFile` has no migration type and
an empty request id, while the model passed to `MigrateDatabase` afterwards
holds `SCHEMA_ONLY` and the id `smt-job-7f-c2`. -/
theorem session_audit_counterexample :
    Event.WriteSessionFile { emptyConv with schema := "converted" }
      "mysqldump_2026.session.json" "stdout" ∈ (Execute calmEnv sourceCmd).trace ∧
    ({ emptyConv with schema := "converted" } : Conv).Audit.MigrationType ≠
      some MigrationType.SCHEMA_ONLY ∧
    ({ emptyConv with schema := "converted" } : Conv).Audit.MigrationRequestId ≠
      "smt-job-7f-c2" ∧
    (populateAudit calmEnv { emptyConv with schema := "converted" }).Audit.MigrationRequestId =
      "smt-job-7f-c2" ∧
    Event.MigrateDatabase "p1" { Project := "tp", Instance := "ti" } { Driver := "mysqldump" }
      "mysqldump_2026" { Out := "stdout", BytesRead := 64 }
      { sourceCmd with filePrefix := "mysqldump_2026" }
      (populateAudit calmEnv { emptyConv with schema := "converted" }) ∈
      (Execute calmEnv sourceCmd).trace := by
  decide

/-- Claim C6, amended: when the conversion step yields the model `conv`, the model
passed to `WriteSessionFile` is `conv` as `WriteSchemaFile` left it, with the
audit fields it then has; `Execute` assigns `Audit.MigrationRequestId` and
`Audit.MigrationType = SCHEMA_ONLY` after `WriteSessionFile` has returned, and
the model that holds them is the one passed to `MigrateDatabase` or, in a dry
run, to `GenerateReport`. -/
theorem audit_assigned_after_session_write (env : Env) (cmd : SchemaCmd) (conv : Conv)
    (io : Streams) (h : ReachesConversion env cmd) (hp : Produces env cmd conv io) :
    (∀ c name out, Event.WriteSessionFile c name out ∈ (Execute env cmd).trace →
      c = modelAtSessionWrite env cmd conv io) ∧
    (modelAtMigrate env cmd conv io).Audit.MigrationRequestId =
      strings.Replace (env.GenerateName "smt-job").1 "_" "-" (-1) ∧
    (modelAtMigrate env cmd conv io).Audit.MigrationType = some MigrationType.SCHEMA_ONLY ∧
    (cmd.dryRun = false →
      Event.MigrateDatabase (resolved env cmd).project (prerequisites env cmd).targetProfile
        (prerequisites env cmd).sourceProfile (prerequisites env cmd).dbName io
        (resolved env cmd) (modelAtMigrate env cmd conv io) ∈ (Execute env cmd).trace) ∧
    (cmd.dryRun = true →
      Event.GenerateReport (prerequisites env cmd).sourceProfile.Driver io.BytesRead
        (env.GetBanner env.startTime (prerequisites env cmd).dbName)
        { modelAtMigrate env cmd conv io with
          Audit := { (modelAtMigrate env cmd conv io).Audit with
            SchemaConversionDuration := env.endTime - env.startTime } }
        (resolved env cmd).filePrefix (prerequisites env cmd).dbName io.Out ∈
        (Execute env cmd).trace) := by
  obtain ⟨tr, htr, hE⟩ := Execute_of_reaches env cmd h
  have hW : ∀ c name out, Event.WriteSessionFile c name out ∉ tr := by
    intro c name out hmem
    have := (htr _ hmem).1
    simp [Event.stage] at this
  simp only [hE, Produces, modelAtMigrate, modelAtSessionWrite, accessorOf, schemaConvResult,
    ← resolved_sessionJSON env cmd, ← resolved_dryRun env cmd] at hp ⊢
  generalize resolved env cmd = c at *
  generalize prerequisites env cmd = pre at *
  refine ⟨?_, rfl, rfl, ?_⟩
  · rcases hp with ⟨hs, hr, hv, hio⟩ | ⟨hs, hd, hc⟩
    · subst hio
      simp only [convert, emit, report, finish, hs, hr, hv]
      repeat' split
      all_goals simp_all [deferred]
    · simp only [convert, emit, report, finish, hs, hd, hc]
      repeat' split
      all_goals simp_all [deferred]
  · rcases hp with ⟨hs, hr, hv, hio⟩ | ⟨hs, hd, hc⟩
    · subst hio
      simp only [convert, emit, report, finish, hs, hr, hv]
      repeat' split
      all_goals simp_all [deferred]
    · simp only [convert, emit, report, finish, hs, hd, hc]
      repeat' split
      all_goals simp_all [deferred]

/-- A run of claim C6, amended: a dry run from the source in the calm environment. -/
theorem audit_assigned_after_session_write_witness :
    ReachesConversion calmEnv { sourceCmd with dryRun := true } ∧
    Produces calmEnv { sourceCmd with dryRun := true } { emptyConv with schema := "converted" }
      { Out := "stdout", BytesRead := 64 } ∧
    (∀ c name out, Event.WriteSessionFile c name out ∈
        (Execute calmEnv { sourceCmd with dryRun := true }).trace →
      c = { emptyConv with schema := "converted" }) ∧
    (modelAtMigrate calmEnv { sourceCmd with dryRun := true }
      { emptyConv with schema := "converted" }
      { Out := "stdout", BytesRead := 64 }).Audit.MigrationType =
        some MigrationType.SCHEMA_ONLY :=
  have hr : ReachesConversion calmEnv { sourceCmd with dryRun := true } := by
    unfold ReachesConversion; decide
  have hp : Produces calmEnv { sourceCmd with dryRun := true }
      { emptyConv with schema := "converted" } { Out := "stdout", BytesRead := 64 } := by
    unfold Produces; decide
  have hc := audit_assigned_after_session_write calmEnv { sourceCmd with dryRun := true }
    _ _ hr hp
  ⟨hr, hp, hc.1, hc.2.2.1⟩

/-- Claim C7 fails on the code: when `SchemaConv` returns an error, `Execute`
returns `ExitFailure` and no entry at error or fatal level is logged, because
the error is held by the `err` declared at line 150 and not by the one the
deferred handler reads.  In the sibling branch the error of `ReadSessionFile`
is assigned to the function-level `err` and logged at fatal level. -/
theorem schemaConv_error_not_logged :
    ReachesConversion badSourceEnv sourceCmd ∧
    (schemaConvResult badSourceEnv sourceCmd).2.2 = some "can't parse dump" ∧
    (Execute badSourceEnv sourceCmd).status = ExitStatus.ExitFailure ∧
    (Execute badSourceEnv sourceCmd).trace.any Event.isErrorLog = false ∧
    Event.Fatal "FATAL error" "unexpected end of JSON input" ∈
      (Execute corruptSessionEnv sessionCmd).trace := by
  unfold ReachesConversion
  decide

/-- Every other failure after the logger is up is logged: a run that does not
return `ExitSuccess`, and in which `SchemaConv` returns no error, has an entry
at error or fatal level. -/
theorem failure_logged_unless_schemaConv_error (env : Env) (cmd : SchemaCmd)
    (hl : env.InitializeLogger cmd.logLevel = none)
    (hs : (Execute env cmd).status ≠ ExitStatus.ExitSuccess)
    (hc : (schemaConvResult env cmd).2.2 = none) :
    (Execute env cmd).trace.any Event.isErrorLog = true := by
  by_cases hr : ReachesConversion env cmd
  · obtain ⟨tr, -, hE⟩ := Execute_of_reaches env cmd hr
    rw [hE] at hs ⊢
    simp only [schemaConvResult] at hc
    generalize resolved env cmd = c at *
    generalize prerequisites env cmd = pre at *
    revert hs
    simp only [convert, emit, report, finish]
    repeat' split
    all_goals simp_all [deferred, Event.isErrorLog]
  · revert hs
    simp only [ReachesConversion, prerequisites, hl, true_and, not_and] at hr
    simp only [Execute, validateOrConvert, finish, hl]
    repeat' split
    all_goals simp_all [deferred, Event.isErrorLog]

/-! ## Dry run, validate mode, migration request id -/

/-- Claim C9 fails on the code.  With `-validate` and a source the prerequisites
reject, the `return` executed is `ExitUsageError` (line 107), but line 106 has
set the function-level `err`, so the deferred handler calls `logger.Log.Fatal`
and the process ends there with exit status 1: `Execute` does not return
`ExitUsageError`.  The same happens at line 114 when the project flag is empty
and `GetProject` fails.  The failure returns that leave `err` unset, such as the
one after a verification error (line 146), do return their status, and so does
the `ExitSuccess` of validate mode. -/
theorem usage_error_ends_in_fatal :
    ((Execute badProfileEnv { sourceCmd with validate := true }).status =
        ExitStatus.ExitUsageError ∧
      (Execute badProfileEnv { sourceCmd with validate := true }).ending = Ending.exits 1 ∧
      (Execute badProfileEnv { sourceCmd with validate := true }).ending ≠
        Ending.returns ExitStatus.ExitUsageError ∧
      Event.Fatal "FATAL error"
          (Errorf "error while preparing prerequisites for migration: " "unknown source") ∈
        (Execute badProfileEnv { sourceCmd with validate := true }).trace) ∧
    ((Execute noProjectEnv { sourceCmd with project := "", validate := true }).status =
        ExitStatus.ExitUsageError ∧
      (Execute noProjectEnv { sourceCmd with project := "", validate := true }).ending =
        Ending.exits 1 ∧
      Event.Fatal "FATAL error" "gcloud not configured" ∈
        (Execute noProjectEnv { sourceCmd with project := "", validate := true }).trace) ∧
    (Execute unreachableTargetEnv sessionCmd).ending =
      Ending.returns ExitStatus.ExitFailure ∧
    (Execute calmEnv { sourceCmd with validate := true }).ending =
      Ending.returns ExitStatus.ExitSuccess := by
  decide

/-- What the code does in validate mode and on the two usage errors, for every
environment.  With `validate` set, once the logger is initialised, the
prerequisites are prepared and the project is given or found, `Execute`
returns `ExitSuccess` and makes no pipeline call.  When
`PrepareMigrationPrerequisites` fails, or the project flag is empty and
`GetProject` fails, the `return` executed is `ExitUsageError`, whatever
`validate` is, and the run ends in the deferred handler with exit status 1. -/
theorem validate_only (env : Env) (cmd : SchemaCmd) :
    (cmd.validate = true → env.InitializeLogger cmd.logLevel = none →
      (prerequisites env cmd).err = none → (cmd.project = "" → env.GetProject.2 = none) →
      (Execute env cmd).status = ExitStatus.ExitSuccess ∧
      (Execute env cmd).ending = Ending.returns ExitStatus.ExitSuccess ∧
      stages (Execute env cmd) = []) ∧
    (env.InitializeLogger cmd.logLevel = none →
      ((prerequisites env cmd).err ≠ none ∨ (cmd.project = "" ∧ env.GetProject.2 ≠ none)) →
      (Execute env cmd).status = ExitStatus.ExitUsageError ∧
      (Execute env cmd).ending = Ending.exits 1) := by
  simp only [prerequisites]
  refine ⟨fun hv hl hp hg => ?_, fun hl h => ?_⟩
  · simp only [Execute, validateOrConvert, finish, stages]
    repeat' split
    all_goals simp_all [deferred, Event.stage]
  · simp only [Execute, validateOrConvert, finish]
    repeat' split
    all_goals simp_all

/-- How any run ends: it returns the operand of the executed `return`, or the
process ends in the deferred handler with exit status 1, after an entry at
fatal level. -/
theorem ending_cases (env : Env) (cmd : SchemaCmd) :
    (Execute env cmd).ending = Ending.returns (Execute env cmd).status ∨
    ((Execute env cmd).ending = Ending.exits 1 ∧
      (Execute env cmd).trace.any Event.isErrorLog = true) := by
  simp only [Execute, validateOrConvert, convert, emit, report, finish]
  repeat' split
  all_goals simp_all [deferred, Event.isErrorLog]

/-- Claim C10: in a run whose conversion step yields a model, `Execute` calls
`GenerateName("smt-job")` and stores in `conv.Audit.MigrationRequestId` the
value `strings.Replace(g, "_", "-", -1)` for the name `g` it returns: the model
it then passes to `MigrateDatabase`, or to `GenerateReport` in a dry run, holds
that value, and so does every model passed to `MigrateDatabase`.  The value is
`g` with every `'_'` replaced by `'-'`: it has the length of `g`, in characters
and in bytes, contains no `'_'`, agrees with `g` at every position where `g`
has no `'_'`, and is `g` itself when `g` contains no `'_'`. -/
theorem migration_request_id_dashed (env : Env) (cmd : SchemaCmd) (conv : Conv)
    (io : Streams) (h : ReachesConversion env cmd) (hp : Produces env cmd conv io) :
    Event.GenerateName "smt-job" ∈ (Execute env cmd).trace ∧
    (cmd.dryRun = false →
      ∃ c, Event.MigrateDatabase (resolved env cmd).project
          (prerequisites env cmd).targetProfile (prerequisites env cmd).sourceProfile
          (prerequisites env cmd).dbName io (resolved env cmd) c ∈ (Execute env cmd).trace ∧
        c.Audit.MigrationRequestId =
          strings.Replace (env.GenerateName "smt-job").1 "_" "-" (-1)) ∧
    (cmd.dryRun = true →
      ∃ c, Event.GenerateReport (prerequisites env cmd).sourceProfile.Driver io.BytesRead
          (env.GetBanner env.startTime (prerequisites env cmd).dbName) c
          (resolved env cmd).filePrefix (prerequisites env cmd).dbName io.Out ∈
          (Execute env cmd).trace ∧
        c.Audit.MigrationRequestId =
          strings.Replace (env.GenerateName "smt-job").1 "_" "-" (-1)) ∧
    (∀ p tp sp db io1 cmd1 c,
      Event.MigrateDatabase p tp sp db io1 cmd1 c ∈ (Execute env cmd).trace →
      c.Audit.MigrationRequestId =
        strings.Replace (env.GenerateName "smt-job").1 "_" "-" (-1)) ∧
    strings.Replace (env.GenerateName "smt-job").1 "_" "-" (-1) =
      dashed (env.GenerateName "smt-job").1 ∧
    (strings.Replace (env.GenerateName "smt-job").1 "_" "-" (-1)).length =
      (env.GenerateName "smt-job").1.length ∧
    (strings.Replace (env.GenerateName "smt-job").1 "_" "-" (-1)).utf8ByteSize =
      (env.GenerateName "smt-job").1.utf8ByteSize ∧
    '_' ∉ (strings.Replace (env.GenerateName "smt-job").1 "_" "-" (-1)).data ∧
    (∀ i : Nat, (env.GenerateName "smt-job").1.data[i]? ≠ some '_' →
      (strings.Replace (env.GenerateName "smt-job").1 "_" "-" (-1)).data[i]? =
        (env.GenerateName "smt-job").1.data[i]?) ∧
    ('_' ∉ (env.GenerateName "smt-job").1.data →
      strings.Replace (env.GenerateName "smt-job").1 "_" "-" (-1) =
        (env.GenerateName "smt-job").1) := by
  obtain ⟨tr, htr, hE⟩ := Execute_of_reaches env cmd h
  have hh : Event.GenerateName "smt-job" ∈ (Execute env cmd).trace ∧
      (cmd.dryRun = false →
        Event.MigrateDatabase (resolved env cmd).project (prerequisites env cmd).targetProfile
          (prerequisites env cmd).sourceProfile (prerequisites env cmd).dbName io
          (resolved env cmd) (modelAtMigrate env cmd conv io) ∈ (Execute env cmd).trace) ∧
      (cmd.dryRun = true →
        Event.GenerateReport (prerequisites env cmd).sourceProfile.Driver io.BytesRead
          (env.GetBanner env.startTime (prerequisites env cmd).dbName)
          { modelAtMigrate env cmd conv io with
            Audit := { (modelAtMigrate env cmd conv io).Audit with
              SchemaConversionDuration := env.endTime - env.startTime } }
          (resolved env cmd).filePrefix (prerequisites env cmd).dbName io.Out ∈
          (Execute env cmd).trace) := by
    simp only [hE, Produces, modelAtMigrate, modelAtSessionWrite, accessorOf, schemaConvResult,
      ← resolved_sessionJSON env cmd, ← resolved_dryRun env cmd] at hp ⊢
    generalize resolved env cmd = c at *
    generalize prerequisites env cmd = pre at *
    rcases hp with ⟨hs, hr, hv, hio⟩ | ⟨hs, hd, hc⟩
    · subst hio
      simp only [convert, emit, report, finish, hs, hr, hv]
      repeat' split
      all_goals simp_all [deferred]
    · simp only [convert, emit, report, finish, hs, hd, hc]
      repeat' split
      all_goals simp_all [deferred]
  have hall : ∀ p tp sp db io1 cmd1 c,
      Event.MigrateDatabase p tp sp db io1 cmd1 c ∈ (Execute env cmd).trace →
      c.Audit.MigrationRequestId =
        strings.Replace (env.GenerateName "smt-job").1 "_" "-" (-1) := by
    intro p tp sp db io1 cmd1 c hmem
    have hM : Event.MigrateDatabase p tp sp db io1 cmd1 c ∉ tr := by
      intro hm
      have := (htr _ hm).1
      simp [Event.stage] at this
    rw [hE] at hmem
    generalize resolved env cmd = c0 at *
    generalize prerequisites env cmd = pre at *
    revert hmem
    simp only [convert, emit, report, finish]
    repeat' split
    all_goals simp_all [deferred]
    all_goals (intro hc; simp [hc, populateAudit])
  refine ⟨hh.1, fun hd => ⟨_, hh.2.1 hd, rfl⟩, fun hd => ⟨_, hh.2.2 hd, rfl⟩, hall,
    Replace_underscore _, ?_, ?_, ?_, ?_, ?_⟩
  · rw [Replace_underscore]; exact dashed_length _
  · rw [Replace_underscore]; exact dashed_utf8ByteSize _
  · rw [Replace_underscore]; exact dashed_no_underscore _
  · intro i hi
    rw [Replace_underscore]; exact dashed_getElem? _ i hi
  · intro hn
    rw [Replace_underscore]; exact dashed_of_no_underscore _ hn

/-- Two runs of claim C10 in the calm environment, where the generated name is
`smt-job_7f_c2`: a conversion from the source passes a model holding
`smt-job-7f-c2` to `MigrateDatabase`, and a dry run passes one to
`GenerateReport`. -/
theorem migration_request_id_dashed_witness :
    (ReachesConversion calmEnv sourceCmd ∧
      Produces calmEnv sourceCmd { emptyConv with schema := "converted" }
        { Out := "stdout", BytesRead := 64 } ∧
      strings.Replace (calmEnv.GenerateName "smt-job").1 "_" "-" (-1) = "smt-job-7f-c2" ∧
      ∃ c, Event.MigrateDatabase (resolved calmEnv sourceCmd).project
          (prerequisites calmEnv sourceCmd).targetProfile
          (prerequisites calmEnv sourceCmd).sourceProfile
          (prerequisites calmEnv sourceCmd).dbName { Out := "stdout", BytesRead := 64 }
          (resolved calmEnv sourceCmd) c ∈ (Execute calmEnv sourceCmd).trace ∧
        c.Audit.MigrationRequestId =
          strings.Replace (calmEnv.GenerateName "smt-job").1 "_" "-" (-1)) ∧
    ((∃ c, Event.GenerateReport
        (prerequisites calmEnv { sourceCmd with dryRun := true }).sourceProfile.Driver
        (64 : Int)
        (calmEnv.GetBanner calmEnv.startTime
          (prerequisites calmEnv { sourceCmd with dryRun := true }).dbName) c
        (resolved calmEnv { sourceCmd with dryRun := true }).filePrefix
        (prerequisites calmEnv { sourceCmd with dryRun := true }).dbName "stdout" ∈
        (Execute calmEnv { sourceCmd with dryRun := true }).trace ∧
      c.Audit.MigrationRequestId =
        strings.Replace (calmEnv.GenerateName "smt-job").1 "_" "-" (-1)) ∧
      Event.GenerateReport "mysqldump" 64 "mysqldump_2026"
        { Audit := { MigrationRequestId := "smt-job-7f-c2",
                     MigrationType := some MigrationType.SCHEMA_ONLY,
                     SkipMetricsPopulation := false, SchemaConversionDuration := 15 },
          schema := "converted" }
        "mysqldump_2026" "mysqldump_2026" "stdout" ∈
        (Execute calmEnv { sourceCmd with dryRun := true }).trace) :=
  have hr : ReachesConversion calmEnv sourceCmd := by unfold ReachesConversion; decide
  have hp : Produces calmEnv sourceCmd { emptyConv with schema := "converted" }
      { Out := "stdout", BytesRead := 64 } := by
    unfold Produces; decide
  have hr1 : ReachesConversion calmEnv { sourceCmd with dryRun := true } := by
    unfold ReachesConversion; decide
  have hp1 : Produces calmEnv { sourceCmd with dryRun := true }
      { emptyConv with schema := "converted" } { Out := "stdout", BytesRead := 64 } := by
    unfold Produces; decide
  ⟨⟨hr, hp, by decide,
    (migration_request_id_dashed calmEnv sourceCmd _ _ hr hp).2.1 (by decide)⟩,
   ⟨(migration_request_id_dashed calmEnv { sourceCmd with dryRun := true } _ _ hr1 hp1).2.2.1
      (by decide), by decide⟩⟩

end Schema
